import Mathlib

/-! The request dispatch of coral (router.go, context.go, server.go).

A shallow embedding of the route table and of the dispatcher of the `coral` package.

* Go strings are pictured as `String` (valid UTF-8 text); `len(s)` is the byte length
  `String.utf8ByteSize`.
* `http.ResponseWriter` is an interface: it is pictured as a recording sink holding the header
  map returned by `Header()` and the sequence of `WriteHeader` / `Write` calls made on it.
* `regexp.Regexp` belongs to the standard library: the dispatcher is stated over an arbitrary
  compiled expression given by its `FindStringSubmatch` function; `regexp.Compile` is an
  argument of `addRoute`. A backtracking model of a fragment of the library's pattern language
  (section "Pattern language") is used for the statements about concrete patterns.
* A handler is a Go function value reached through `reflect`: it is pictured by its parameter
  types and by the behaviour of `reflect.Value.Call` on it.
* The diagnostic log (`Server.logln`, `Server.logRequest`) is not part of the pictured state.
-/

namespace Coral

/-! ## Bytes, headers, response sink -/

/-- Byte content, the Go type `[]byte`. -/
abbrev Bytes := List UInt8

/-- The conversion `[]byte(s)`: the UTF-8 encoding of `s`. -/
def bytesOf (s : String) : Bytes := s.data.flatMap String.utf8EncodeChar

/-- The map type `http.Header` (`map[string][]string`), as an association list with at most
the first entry of a key being live. -/
abbrev Header := List (String × List String)

/-- Token bytes of a header field name (`validHeaderFieldByte` of net/textproto). -/
def validHeaderFieldByte (c : Char) : Bool :=
  c.isAlphanum || "!#$%&*+-.^_|~".data.contains c || c.toNat == 39 || c.toNat == 96

/-- Upper-case the first letter and every letter after a dash, lower-case the others. -/
def canonicalizeFrom : Bool → List Char → List Char
  | _, [] => []
  | upper, c :: cs =>
    let c1 := if upper && c.isLower then c.toUpper
              else if !upper && c.isUpper then c.toLower else c
    c1 :: canonicalizeFrom (c1 == '-') cs

/-- The function `textproto.CanonicalMIMEHeaderKey`: a key holding a byte that is not a token
byte is returned unchanged. -/
def CanonicalMIMEHeaderKey (s : String) : String :=
  if s.data.all validHeaderFieldByte then String.mk (canonicalizeFrom true s.data) else s

/-- Map indexing `h[key]` with the comma-ok form: the raw key is looked up. -/
def Header.index (h : Header) (key : String) : Option (List String) := h.lookup key

/-- The method `Header.Set`: the canonical key is bound to the single value. -/
def Header.Set (h : Header) (key value : String) : Header :=
  (CanonicalMIMEHeaderKey key, [value]) :: h.filter (fun e => e.1 != CanonicalMIMEHeaderKey key)

/-- The method `Header.Add`: the value is appended to the values of the canonical key. -/
def Header.Add (h : Header) (key value : String) : Header :=
  (CanonicalMIMEHeaderKey key, (h.lookup (CanonicalMIMEHeaderKey key)).getD [] ++ [value]) ::
    h.filter (fun e => e.1 != CanonicalMIMEHeaderKey key)

/-- One call received by the response sink. -/
inductive Sent where
  | status (code : Int)
  | body (p : Bytes)
deriving DecidableEq

/-- The response sink `http.ResponseWriter`, as the header map and the calls received. -/
structure ResponseWriter where
  header : Header
  sent : List Sent
deriving DecidableEq

/-- The method `WriteHeader(status)`. -/
def ResponseWriter.WriteHeader (w : ResponseWriter) (code : Int) : ResponseWriter :=
  { w with sent := w.sent ++ [Sent.status code] }

/-- The method `Write(p)`. -/
def ResponseWriter.Write (w : ResponseWriter) (p : Bytes) : ResponseWriter :=
  { w with sent := w.sent ++ [Sent.body p] }

/-- Bytes of one call as far as the body goes. -/
def Sent.payload : Sent → Bytes
  | Sent.status _ => []
  | Sent.body p => p

/-- The response body: every written chunk, in order. -/
def ResponseWriter.body (w : ResponseWriter) : Bytes := w.sent.flatMap Sent.payload

/-- The status codes passed to `WriteHeader`, in order. -/
def ResponseWriter.statuses (w : ResponseWriter) : List Int :=
  w.sent.filterMap (fun e => match e with | Sent.status c => some c | Sent.body _ => none)

/-! ## Values, handlers -/

/-- The Go types that the dispatcher tells apart. -/
inductive GoType where
  | string
  | byteSlice
  | emptyInterface
  | contextStruct
  | ptr (elem : GoType)
  | named (name : String)
deriving DecidableEq

/-- The values exchanged with a handler through `reflect`. -/
inductive Value where
  /-- The value `reflect.ValueOf(ctx)` for the context of the running request. -/
  | context
  /-- A value of kind `String`. -/
  | str (s : String)
  /-- A value of type `[]byte`. -/
  | bytes (b : Bytes)
  /-- A value of a defined type whose kind is `Slice` with element kind `Uint8`. -/
  | namedBytes (typeName : String) (b : Bytes)
  /-- A value of any other kind. -/
  | other (typeName : String)
deriving DecidableEq

/-- What `reflect.Value.Call` does: it returns the results, or it panics; either way the
handler may have used the response sink. `recovered` is what `recover()` yields for the panic:
`some v` for a non-nil value, `none` for the nil value of `panic(nil)`. -/
inductive Outcome where
  | returned (w : ResponseWriter) (ret : List Value)
  | panicked (w : ResponseWriter) (recovered : Option String)
deriving DecidableEq

/-- A handler: a Go function value. `In` lists its declared parameter types
(`handlerType.In(i)`, `NumIn = In.length`); `Call args w` is `function.Call(args)` run while the
response sink is `w`, including the panics that `reflect` raises on an arity or type
mismatch (those carry a non-nil value). -/
structure Handler where
  In : List GoType
  Call : List Value → ResponseWriter → Outcome

/-- The static type of a value passed by the dispatcher. -/
def Value.typeOf : Value → GoType
  | Value.context => GoType.ptr GoType.contextStruct
  | Value.str _ => GoType.string
  | Value.bytes _ => GoType.byteSlice
  | Value.namedBytes n _ => GoType.named n
  | Value.other n => GoType.named n

/-- Assignability of an argument to a parameter type, as checked by `reflect.Value.Call`. -/
def assignable (v : Value) (t : GoType) : Bool :=
  t == GoType.emptyInterface || v.typeOf == t

/-- A non-variadic Go function with parameter types `params` and body `body`, as seen through
`reflect.Value.Call`: the call panics unless the arguments fit the parameters. -/
def Handler.ofFunc (params : List GoType) (body : List Value → ResponseWriter → Outcome) :
    Handler where
  In := params
  Call := fun args w =>
    if args.length < params.length then
      Outcome.panicked w (some "reflect: Call with too few input arguments")
    else if args.length > params.length then
      Outcome.panicked w (some "reflect: Call with too many input arguments")
    else if !(List.zipWith assignable args params).all id then
      Outcome.panicked w (some "reflect: Call using value of wrong type")
    else body args w

/-- The `handler interface{}` argument of the registration functions. -/
inductive HandlerArg where
  /-- The argument already is a `reflect.Value`. -/
  | reflected (fv : Handler)
  /-- The argument is a plain function. -/
  | plain (f : Handler)

/-- The function `reflect.ValueOf` on a function. -/
def reflectValueOf (f : Handler) : Handler := f

/-! ## Context (context.go) -/

/-- The inbound request, as far as the dispatcher reads it. -/
structure Request where
  Method : String
  Path : String
deriving DecidableEq

/-- The per-request `Context`. The field `calls` is ghost state: the route index and the
argument list of every `safelyCall` made for this request, oldest first. -/
structure Context where
  ResponseWriter : ResponseWriter
  Request : Request
  calls : List (Nat × List Value)
deriving DecidableEq

/-- The method `Context.AddHeader`. -/
def Context.AddHeader (this : Context) (key val : String) : Context :=
  { this with ResponseWriter :=
      { this.ResponseWriter with header := this.ResponseWriter.header.Add key val } }

/-- The method `Context.SetHeader`. -/
def Context.SetHeader (this : Context) (key val : String) : Context :=
  { this with ResponseWriter :=
      { this.ResponseWriter with header := this.ResponseWriter.header.Set key val } }

/-- The method `Context.WriteString`. -/
def Context.WriteString (this : Context) (content : String) : Context :=
  { this with ResponseWriter := this.ResponseWriter.Write (bytesOf content) }

/-- The method `Context.Abort`: sends a status and a body. -/
def Context.Abort (this : Context) (status : Int) (body : String) : Context :=
  { this with ResponseWriter := (this.ResponseWriter.WriteHeader status).Write (bytesOf body) }

/-! ## Router (router.go) -/

/-- A compiled `regexp.Regexp`, given by its method `FindStringSubmatch`: the empty list is the
nil result (no match), otherwise the head is `match[0]` and the tail the submatches. -/
structure Regexp where
  FindStringSubmatch : String → List String

/-- The method `MatchString`: whether the expression matches somewhere in `s`. -/
def Regexp.MatchString (cr : Regexp) (s : String) : Bool := !(cr.FindStringSubmatch s).isEmpty

/-- The struct `route`. -/
structure route where
  pattern : String
  cr : Regexp
  method : String
  handler : Handler

/-- The struct `Router`. -/
structure Router where
  routes : List route

/-- The constructor `NewRouter`. -/
def NewRouter : Router := { routes := [] }

/-- The method `Router.addRoute`; `compile` is `regexp.Compile`. The result is the router
after the call and the returned error (`none` is nil). -/
def Router.addRoute (compile : String → Except String Regexp) (this : Router)
    (pattern : String) (method : String) (handler : HandlerArg) : Router × Option String :=
  match compile pattern with
  | Except.error err => (this, some err)
  | Except.ok cr =>
    match handler with
    | HandlerArg.reflected fv =>
      ({ routes := this.routes ++
          [{ pattern := pattern, cr := cr, method := method, handler := fv }] }, none)
    | HandlerArg.plain f =>
      ({ routes := this.routes ++
          [{ pattern := pattern, cr := cr, method := method, handler := reflectValueOf f }] },
        none)

/-- The method `Router.Get`. -/
def Router.Get (compile : String → Except String Regexp) (this : Router) (pattern : String)
    (handler : HandlerArg) : Router × Option String :=
  this.addRoute compile pattern "GET" handler

/-- The method `Router.Post`. -/
def Router.Post (compile : String → Except String Regexp) (this : Router) (pattern : String)
    (handler : HandlerArg) : Router × Option String :=
  this.addRoute compile pattern "POST" handler

/-- The method `Router.Put`. -/
def Router.Put (compile : String → Except String Regexp) (this : Router) (pattern : String)
    (handler : HandlerArg) : Router × Option String :=
  this.addRoute compile pattern "PUT" handler

/-- The method `Router.Delete`. -/
def Router.Delete (compile : String → Except String Regexp) (this : Router) (pattern : String)
    (handler : HandlerArg) : Router × Option String :=
  this.addRoute compile pattern "DELETE" handler

/-- The method `Router.Match`. -/
def Router.Match (compile : String → Except String Regexp) (this : Router) (pattern : String)
    (method : String) (handler : HandlerArg) : Router × Option String :=
  this.addRoute compile pattern method handler

/-- The variable `contextType`, set by `init` to `reflect.TypeOf(Context{})`. -/
def contextType : GoType := GoType.contextStruct

/-- The function `requiresContext`, on the parameter types of the handler type. -/
def requiresContext (handlerType : List GoType) : Bool :=
  match handlerType with
  | [] => false
  | a0 :: _ =>
    match a0 with
    | GoType.ptr elem => if elem = contextType then true else false
    | _ => false

/-- The function `safelyCall`: the results `resp` and the error `e` (`none` is nil), with the
context after the call. When the call panics the deferred function runs: if the recovered
value is not nil it becomes `e` and `resp` is set to nil; if it is nil the guard
`err != nil` fails and the named results keep their zero values, nil and nil. -/
def safelyCall (ctx : Context) (function : Handler) (args : List Value) :
    Context × List Value × Option String :=
  match function.Call args ctx.ResponseWriter with
  | Outcome.returned w resp => ({ ctx with ResponseWriter := w }, resp, none)
  | Outcome.panicked w recovered =>
    match recovered with
    | some err => ({ ctx with ResponseWriter := w }, [], some err)
    | none => ({ ctx with ResponseWriter := w }, [], none)

/-- How a call of `routeHandler` ends: it returns, or a panic leaves it. -/
inductive Exit where
  | returned
  | panicked (v : String)
deriving DecidableEq

/-- Lines 81-88 of `routeHandler`: the argument list built for the handler of a route from the
result `m` of `FindStringSubmatch`. -/
def routeHandler.args (rt : route) (m : List String) : List Value :=
  (if requiresContext rt.handler.In then [Value.context] else []) ++ (m.drop 1).map Value.str

/-- Lines 99-117 of `routeHandler`: the first returned value is turned into content, the
default headers are set and the content is written. -/
def routeHandler.respond (ctx : Context) (sval : Value) : Context × Exit :=
  let content : Option Bytes :=
    match sval with
    | Value.str s => some (bytesOf s)
    | Value.bytes b => some b
    | Value.namedBytes _ _ => none
    | _ => some []
  match content with
  | none => (ctx, Exit.panicked "interface conversion: interface is not []uint8")
  | some content =>
    let ctx1 :=
      if (ctx.ResponseWriter.header.index "Content-Type").isSome then ctx
      else ctx.SetHeader "Content-Type" "text/html; charset=utf-8"
    let ctx2 := ctx1.SetHeader "Content-Length" (toString content.length)
    ({ ctx2 with ResponseWriter := ctx2.ResponseWriter.Write content }, Exit.returned)

/-- Lines 91-117 of `routeHandler`: what is done with the results `ret` and the recovered
value `err` that `safelyCall` handed back. -/
def routeHandler.finish (ctx : Context) (ret : List Value) (err : Option String) :
    Context × Exit :=
  let ctx1 := if err.isSome then ctx.Abort 500 "Server Error" else ctx
  match ret with
  | [] => (ctx1, Exit.returned)
  | sval :: _ => routeHandler.respond ctx1 sval

/-- Lines 81-117 of `routeHandler`: route `i` has been accepted with match `m`. -/
def routeHandler.serve (ctx : Context) (i : Nat) (rt : route) (m : List String) :
    Context × Exit :=
  let args := routeHandler.args rt m
  let r := safelyCall { ctx with calls := ctx.calls ++ [(i, args)] } rt.handler args
  routeHandler.finish r.1 r.2.1 r.2.2

/-- The loop of `routeHandler` from index `i` on, `rest` being `this.routes[i:]`. -/
def routeHandler.loop (ctx : Context) (path : String) : Nat → List route → Context × Exit
  | _, [] => (ctx.Abort 404 "Page not found", Exit.returned)
  | i, rt :: rest =>
    if ctx.Request.Method != rt.method &&
        !(ctx.Request.Method == "HEAD" && rt.method == "GET") then
      routeHandler.loop ctx path (i + 1) rest
    else if !rt.cr.MatchString path then
      routeHandler.loop ctx path (i + 1) rest
    else
      match rt.cr.FindStringSubmatch path with
      | [] => (ctx, Exit.panicked "index out of range")
      | m0 :: subs =>
        if m0.utf8ByteSize != path.utf8ByteSize then
          routeHandler.loop ctx path (i + 1) rest
        else
          routeHandler.serve ctx i rt (m0 :: subs)

/-- The method `Router.routeHandler`. -/
def Router.routeHandler (this : Router) (ctx : Context) (path : String) : Context × Exit :=
  routeHandler.loop ctx path 0 this.routes

/-! ## Server (server.go) -/

/-- The struct `Server`, as far as `ServeHTTP` reads it: `none` is the nil router. -/
structure Server where
  Router : Option Router

/-- The method `Server.ServeHTTP`. `DefaultRouter` is the package variable, `webTime` the
date formatter of the package and `tm` the time read by `time.Now().UTC()`. -/
def Server.ServeHTTP (this : Server) (DefaultRouter : Coral.Router) (webTime : Nat → String)
    (tm : Nat) (w : ResponseWriter) (r : Request) : Context × Exit :=
  let router := match this.Router with
    | some router => router
    | none => DefaultRouter
  let ctx : Context := { ResponseWriter := w, Request := r, calls := [] }
  let ctx := ctx.SetHeader "Server" "coral"
  let ctx := ctx.SetHeader "Date" (webTime tm)
  router.routeHandler ctx r.Path

/-! ## Pattern language

A model of `regexp.Compile` and of the leftmost-first matching of the standard library on a
fragment of its pattern language: literal characters, escaped punctuation, `.`, bracket
classes of characters and ranges (with negation), capturing groups, alternation and the
greedy operators `*`, `+`, `?`, the operand of `*` and `+` being unable to match the empty
string. A pattern outside this fragment is reported as an error by the model. -/

/-- Abstract syntax of the fragment. -/
inductive Re where
  | empty
  | lit (c : Char)
  /-- The dot: any character but the line feed. -/
  | any
  /-- A bracket class: the ranges, and whether the class is negated. -/
  | cls (neg : Bool) (ranges : List (Char × Char))
  | cat (a b : Re)
  | alt (a b : Re)
  | star (a : Re)
  | plus (a : Re)
  | opt (a : Re)
  /-- The capturing group number `i`. -/
  | group (i : Nat) (a : Re)
deriving DecidableEq

/-- The text captured by each group so far, newest binding first. -/
abbrev Caps := List (Nat × List Char)

/-- A way of matching: the input left over and the captures. -/
abbrev Thread := List Char × Caps

/-- Whether a character belongs to one of the ranges. -/
def inRanges (ranges : List (Char × Char)) (x : Char) : Bool :=
  ranges.any (fun r => r.1.toNat ≤ x.toNat && x.toNat ≤ r.2.toNat)

/-- Greedy iteration of `step`: the threads that take one more round come first, the thread
that stops here comes last. A round has to consume input. -/
def Re.iter (step : List Char → Caps → List Thread) : Nat → List Char → Caps → List Thread
  | 0, s, c => [(s, c)]
  | fuel + 1, s, c =>
    ((step s c).filter (fun t => t.1.length < s.length)).flatMap
        (fun t => Re.iter step fuel t.1 t.2) ++ [(s, c)]

/-- Every way of matching the expression at the start of the input, in order of preference
(leftmost-first). -/
def Re.run : Re → List Char → Caps → List Thread
  | Re.empty, s, c => [(s, c)]
  | Re.lit a, s, c =>
    match s with
    | [] => []
    | x :: xs => if x = a then [(xs, c)] else []
  | Re.any, s, c =>
    match s with
    | [] => []
    | x :: xs => if x = Char.ofNat 10 then [] else [(xs, c)]
  | Re.cls neg ranges, s, c =>
    match s with
    | [] => []
    | x :: xs => if inRanges ranges x != neg then [(xs, c)] else []
  | Re.cat a b, s, c => (a.run s c).flatMap (fun t => b.run t.1 t.2)
  | Re.alt a b, s, c => a.run s c ++ b.run s c
  | Re.star a, s, c => Re.iter a.run s.length s c
  | Re.plus a, s, c => (a.run s c).flatMap (fun t => Re.iter a.run t.1.length t.1 t.2)
  | Re.opt a, s, c => a.run s c ++ [(s, c)]
  | Re.group i a, s, c =>
    (a.run s c).map (fun t => (t.1, (i, s.take (s.length - t.1.length)) :: t.2))

/-- The number of capturing groups (`NumSubexp`). -/
def Re.numSubexp : Re → Nat
  | Re.cat a b => a.numSubexp + b.numSubexp
  | Re.alt a b => a.numSubexp + b.numSubexp
  | Re.star a => a.numSubexp
  | Re.plus a => a.numSubexp
  | Re.opt a => a.numSubexp
  | Re.group _ a => a.numSubexp + 1
  | _ => 0

/-- Whether the expression can match the empty string. -/
def Re.nullable : Re → Bool
  | Re.empty => true
  | Re.cat a b => a.nullable && b.nullable
  | Re.alt a b => a.nullable || b.nullable
  | Re.star _ => true
  | Re.plus a => a.nullable
  | Re.opt _ => true
  | Re.group _ a => a.nullable
  | _ => false

/-- The leftmost match: the first start position with a match, and there the preferred
thread. The result is the matched text and the captures. -/
def Re.search (re : Re) : List Char → Option (List Char × Caps)
  | [] => (re.run [] []).head?.map (fun t => ([], t.2))
  | x :: xs =>
    match (re.run (x :: xs) []).head? with
    | some t => some ((x :: xs).take ((x :: xs).length - t.1.length), t.2)
    | none => re.search xs

/-- The compiled expression of a pattern of the fragment: `FindStringSubmatch` returns the
matched text followed by the text of each group (empty for a group that took no part). -/
def Regexp.ofRe (re : Re) : Regexp where
  FindStringSubmatch := fun s =>
    match re.search s.data with
    | none => []
    | some (m0, caps) =>
      String.mk m0 ::
        (List.range re.numSubexp).map (fun k => String.mk ((caps.lookup (k + 1)).getD []))

/-- Concatenation of the items of a sequence. -/
def Re.catOf : List Re → Re
  | [] => Re.empty
  | [a] => a
  | a :: rest => Re.cat a (Re.catOf rest)

/-- Alternation of the branches. -/
def Re.altOf : List Re → Re
  | [] => Re.empty
  | [a] => a
  | a :: rest => Re.alt a (Re.altOf rest)

/-- An open parenthesis level of the reader: the group number, the finished branches and the
items of the running branch (both newest first), and whether the newest item was just built
by a repetition operator. -/
structure Frame where
  idx : Nat
  alts : List Re
  cur : List Re
  rep : Bool

/-- The expression of a finished level. -/
def Frame.close (f : Frame) : Re := Re.altOf ((Re.catOf f.cur.reverse :: f.alts).reverse)

/-- A level with one more item. -/
def Frame.push (f : Frame) (a : Re) : Frame := { f with cur := a :: f.cur, rep := false }

/-- The items of a bracket class after the opening bracket and the negation sign, up to the
closing bracket; the result holds the ranges and the input after the bracket. -/
def parseClassItems : Nat → List Char → List (Char × Char) →
    Option (List (Char × Char) × List Char)
  | 0, _, _ => none
  | _ + 1, [], _ => none
  | fuel + 1, c :: rest, acc =>
    if c == ']' && !acc.isEmpty then some (acc.reverse, rest)
    else if c == Char.ofNat 92 || c == '[' then none
    else if c == '-' && !acc.isEmpty && rest.head? != some ']' then none
    else
      match rest with
      | '-' :: hi :: rest2 =>
        if hi == ']' then parseClassItems fuel rest ((c, c) :: acc)
        else if hi == Char.ofNat 92 || hi == '[' then none
        else if hi.toNat < c.toNat then none
        else parseClassItems fuel rest2 ((c, hi) :: acc)
      | _ => parseClassItems fuel rest ((c, c) :: acc)

/-- The reader of patterns: `top` is the innermost open level, `stack` the enclosing ones and
`next` the number of the next group. -/
def parseLoop : Nat → List Char → Frame → List Frame → Nat → Option Re
  | 0, _, _, _, _ => none
  | _ + 1, [], top, stack, _ =>
    match stack with
    | [] => some top.close
    | _ :: _ => none
  | fuel + 1, c :: cs, top, stack, next =>
    if c == '(' then
      match cs with
      | '?' :: _ => none
      | _ => parseLoop fuel cs { idx := next, alts := [], cur := [], rep := false }
              (top :: stack) (next + 1)
    else if c == ')' then
      match stack with
      | [] => none
      | parent :: stack1 =>
        parseLoop fuel cs (parent.push (Re.group top.idx top.close)) stack1 next
    else if c == '|' then
      parseLoop fuel cs
        { top with alts := Re.catOf top.cur.reverse :: top.alts, cur := [], rep := false }
        stack next
    else if c == '*' || c == '+' || c == '?' then
      match top.cur with
      | [] => none
      | x :: xs =>
        if top.rep then none
        else if c != '?' && x.nullable then none
        else
          let y := if c == '*' then Re.star x else if c == '+' then Re.plus x else Re.opt x
          parseLoop fuel cs { top with cur := y :: xs, rep := true } stack next
    else if c == '.' then parseLoop fuel cs (top.push Re.any) stack next
    else if c == '[' then
      let neg := cs.head? == some '^'
      match parseClassItems cs.length (if neg then cs.drop 1 else cs) [] with
      | none => none
      | some (ranges, rest) => parseLoop fuel rest (top.push (Re.cls neg ranges)) stack next
    else if c == Char.ofNat 92 then
      match cs with
      | [] => none
      | d :: rest =>
        if d.toNat < 128 && !d.isAlphanum then parseLoop fuel rest (top.push (Re.lit d)) stack next
        else none
    else if c == ']' || c == '^' || c == '$' || c == Char.ofNat 123 || c == Char.ofNat 125 then
      none
    else parseLoop fuel cs (top.push (Re.lit c)) stack next

/-- The expression read from a pattern of the fragment. -/
def parsePattern (pattern : String) : Option Re :=
  parseLoop (pattern.data.length + 1) pattern.data
    { idx := 0, alts := [], cur := [], rep := false } [] 1

/-- The model of `regexp.Compile` on the fragment. -/
def compileModel (pattern : String) : Except String Regexp :=
  match parsePattern pattern with
  | some re => Except.ok (Regexp.ofRe re)
  | none => Except.error ("error parsing regexp: " ++ pattern)


/-! ## Acceptance of a route, in the words of the specification -/

/-- The method test: the request method is the method of the route, or the request is a HEAD
and the route is registered for GET. -/
def MethodOK (reqMethod routeMethod : String) : Prop :=
  reqMethod = routeMethod ∨ (reqMethod = "HEAD" ∧ routeMethod = "GET")

/-- The full-span test: the expression matches in the path and the matched span `match[0]`
is as long as the path. -/
def FullSpan (cr : Regexp) (path : String) : Prop :=
  ∃ m0 subs, cr.FindStringSubmatch path = m0 :: subs ∧ m0.utf8ByteSize = path.utf8ByteSize

/-- A route accepts a request: both tests pass. -/
def Accepts (rt : route) (reqMethod path : String) : Prop :=
  MethodOK reqMethod rt.method ∧ FullSpan rt.cr path

/-- What the library guarantees of `match[0]`: it is a contiguous part of the input. -/
def Regexp.Contiguous (cr : Regexp) : Prop :=
  ∀ s m0 subs, cr.FindStringSubmatch s = m0 :: subs → ∃ pre post, s = pre ++ m0 ++ post

/-- The function behind a registration argument. -/
def HandlerArg.fn : HandlerArg → Handler
  | HandlerArg.reflected fv => fv
  | HandlerArg.plain f => f

/-! ## Example handlers and tables -/

/-- An empty response sink. -/
def emptyWriter : ResponseWriter := { header := [], sent := [] }

/-- The context of a fresh request. -/
def newContext (method path : String) : Context :=
  { ResponseWriter := emptyWriter, Request := { Method := method, Path := path }, calls := [] }

/-- The handler `hello` of examples/hello.go: `func hello(val string) string`. -/
def hello : Handler :=
  Handler.ofFunc [GoType.string] (fun args w =>
    match args with
    | [Value.str val] => Outcome.returned w [Value.str ("hello " ++ val)]
    | _ => Outcome.panicked w (some "unreachable"))

/-- A handler `func() string` answering a fixed text. -/
def fixedText (text : String) : Handler :=
  Handler.ofFunc [] (fun _ w => Outcome.returned w [Value.str text])

/-- The table of examples/hello.go, followed by a more specific route. -/
def helloRouter : Router :=
  ((NewRouter.Get compileModel "/(.*)" (HandlerArg.plain hello)).1.Get compileModel "/a"
    (HandlerArg.plain (fixedText "specific"))).1

/-- The effect on the response sink of a `Context` method called from inside a handler. -/
def onWriter (f : Context → Context) (w : ResponseWriter) : ResponseWriter :=
  (f { ResponseWriter := w, Request := { Method := "", Path := "" }, calls := [] }).ResponseWriter

/-- A handler `func(ctx *Context, id string)` that writes `id` and returns no value. -/
def showUser : Handler :=
  Handler.ofFunc [GoType.ptr GoType.contextStruct, GoType.string] (fun args w =>
    match args with
    | [Value.context, Value.str id] =>
      Outcome.returned (onWriter (fun c => c.WriteString id) w) []
    | _ => Outcome.panicked w (some "unreachable"))

/-- The table with the single route `GET /user/([^/]+)` bound to `showUser`. -/
def userRouter : Router :=
  (NewRouter.Get compileModel "/user/([^/]+)" (HandlerArg.plain showUser)).1

/-- A handler `func()` whose body panics. -/
def crashing : Handler :=
  Handler.ofFunc [] (fun _ w => Outcome.panicked w (some "boom"))

/-- The table with the route `GET /crash` bound to `crashing`, then the catch-all `hello`. -/
def crashRouter : Router :=
  ((NewRouter.Get compileModel "/crash" (HandlerArg.plain crashing)).1.Get compileModel "/(.*)"
    (HandlerArg.plain hello)).1

/-- A handler `func(ctx *Context) string` that calls `ctx.Abort(403, "denied")` and then
returns the text `"x"`. -/
def denyThenReturn : Handler :=
  Handler.ofFunc [GoType.ptr GoType.contextStruct] (fun _ w =>
    Outcome.returned (onWriter (fun c => c.Abort 403 "denied") w) [Value.str "x"])

/-- The table with the single route `GET /` bound to `denyThenReturn`. -/
def denyRouter : Router :=
  (NewRouter.Get compileModel "/" (HandlerArg.plain denyThenReturn)).1

/-- A handler `func()` that does nothing and returns no value. -/
def silent : Handler :=
  Handler.ofFunc [] (fun _ w => Outcome.returned w [])

/-- The table with the single route `GET /` bound to `silent`. -/
def silentRouter : Router :=
  (NewRouter.Get compileModel "/" (HandlerArg.plain silent)).1

/-- A fixed date formatter standing for `webTime`. -/
def fixedDate : Nat → String := fun _ => "Thu, 01 Jan 1970 00:00:00 GMT"

/-- A handler `func() []byte` answering fixed bytes. -/
def fixedBytes (b : Bytes) : Handler :=
  Handler.ofFunc [] (fun _ w => Outcome.returned w [Value.bytes b])

/-- The table of examples/hello.go: the single catch-all route. -/
def catchAllRouter : Router :=
  (NewRouter.Get compileModel "/(.*)" (HandlerArg.plain hello)).1

/-- The table with the single route `GET /foo`. -/
def fooRouter : Router :=
  (NewRouter.Get compileModel "/foo" (HandlerArg.plain (fixedText "foo"))).1

/-- The table with the single route `POST /(.*)` bound to `hello`. -/
def postRouter : Router :=
  (NewRouter.Post compileModel "/(.*)" (HandlerArg.plain hello)).1

/-- A handler `func(ctx *Context) []byte` that sets its own Content-Type and returns bytes. -/
def rawBytes (b : Bytes) : Handler :=
  Handler.ofFunc [GoType.ptr GoType.contextStruct] (fun _ w =>
    Outcome.returned
      (onWriter (fun c => c.SetHeader "Content-Type" "application/octet-stream") w)
      [Value.bytes b])

/-- The table with the single route `GET /raw` bound to `rawBytes`. -/
def rawRouter : Router :=
  (NewRouter.Get compileModel "/raw" (HandlerArg.plain (rawBytes [1, 2, 3]))).1

/-- The table with the single route `GET /plain` bound to `hello`: the pattern has no group
although the handler declares one parameter. -/
def arityRouter : Router :=
  (NewRouter.Get compileModel "/plain" (HandlerArg.plain hello)).1

/-- A handler `func()` whose body is `panic(nil)`. -/
def nilPanic : Handler :=
  Handler.ofFunc [] (fun _ w => Outcome.panicked w none)

/-- The table with the single route `GET /` bound to `nilPanic`. -/
def nilPanicRouter : Router :=
  (NewRouter.Get compileModel "/" (HandlerArg.plain nilPanic)).1

/-- A handler `func() json.RawMessage` returning the bytes of "ok": the result has a defined
type whose underlying type is `[]byte`. -/
def rawMessage : Handler :=
  Handler.ofFunc [] (fun _ w =>
    Outcome.returned w [Value.namedBytes "json.RawMessage" (bytesOf "ok")])

/-- The table with the single route `GET /msg` bound to `rawMessage`. -/
def rawMessageRouter : Router :=
  (NewRouter.Get compileModel "/msg" (HandlerArg.plain rawMessage)).1

/-! ## Response resolution, in the words of the specification -/

/-- The response `out` is the sink `w` left by the handler with `content` resolved onto it: the
content is appended to the body, Content-Length holds its decimal byte count, Content-Type
is the one already present or else the default, and no other header is touched. -/
def Resolved (w : ResponseWriter) (content : Bytes) (out : Context × Exit) : Prop :=
  out.2 = Exit.returned ∧
  out.1.ResponseWriter.sent = w.sent ++ [Sent.body content] ∧
  out.1.ResponseWriter.header.index "Content-Length" = some [toString content.length] ∧
  out.1.ResponseWriter.header.index "Content-Type" =
    (match w.header.index "Content-Type" with
      | some vs => some vs
      | none => some ["text/html; charset=utf-8"]) ∧
  ∀ k, k ≠ "Content-Type" → k ≠ "Content-Length" →
    out.1.ResponseWriter.header.index k = w.header.index k

/-! ## The loop of routeHandler -/

@[simp] theorem Abort_calls (ctx : Context) (status : Int) (body : String) :
    (ctx.Abort status body).calls = ctx.calls := rfl

@[simp] theorem SetHeader_calls (ctx : Context) (k v : String) :
    (ctx.SetHeader k v).calls = ctx.calls := rfl

@[simp] theorem Abort_request (ctx : Context) (status : Int) (body : String) :
    (ctx.Abort status body).Request = ctx.Request := rfl

theorem safelyCall_calls (ctx : Context) (f : Handler) (args : List Value) :
    (safelyCall ctx f args).1.calls = ctx.calls := by
  unfold safelyCall
  cases f.Call args ctx.ResponseWriter with
  | returned w resp => rfl
  | panicked w recovered => cases recovered <;> rfl

theorem respond_calls (ctx : Context) (sval : Value) :
    (routeHandler.respond ctx sval).1.calls = ctx.calls := by
  unfold routeHandler.respond
  cases sval <;> simp <;> split <;> simp

theorem finish_calls (ctx : Context) (ret : List Value) (err : Option String) :
    (routeHandler.finish ctx ret err).1.calls = ctx.calls := by
  unfold routeHandler.finish
  cases ret with
  | nil => cases err <;> simp
  | cons sval tl => cases err <;> simp [respond_calls]

theorem serve_calls (ctx : Context) (i : Nat) (rt : route) (m : List String) :
    (routeHandler.serve ctx i rt m).1.calls = ctx.calls ++ [(i, routeHandler.args rt m)] := by
  unfold routeHandler.serve
  simp only [finish_calls, safelyCall_calls]

theorem loop_cons_accept (ctx : Context) (path : String) (i : Nat) (rt : route)
    (rest : List route) (h : Accepts rt ctx.Request.Method path) :
    routeHandler.loop ctx path i (rt :: rest) =
      routeHandler.serve ctx i rt (rt.cr.FindStringSubmatch path) := by
  obtain ⟨hm, m0, subs, hf, hl⟩ := h
  have h1 : (ctx.Request.Method != rt.method &&
      !(ctx.Request.Method == "HEAD" && rt.method == "GET")) = false := by
    rcases hm with hm | ⟨ha, hb⟩
    · simp [hm]
    · simp [ha, hb]
  have h2 : (!rt.cr.MatchString path) = false := by simp [Regexp.MatchString, hf]
  have h3 : (m0.utf8ByteSize != path.utf8ByteSize) = false := by simp [hl]
  rw [routeHandler.loop, h1, h2, hf]
  simp only [h3, Bool.false_eq_true, if_false]

theorem loop_cons_skip (ctx : Context) (path : String) (i : Nat) (rt : route)
    (rest : List route) (h : ¬ Accepts rt ctx.Request.Method path) :
    routeHandler.loop ctx path i (rt :: rest) = routeHandler.loop ctx path (i + 1) rest := by
  rw [routeHandler.loop]
  by_cases h1 : (ctx.Request.Method != rt.method &&
      !(ctx.Request.Method == "HEAD" && rt.method == "GET")) = true
  · rw [if_pos h1]
  · rw [if_neg h1]
    by_cases h2 : (!rt.cr.MatchString path) = true
    · rw [if_pos h2]
    · rw [if_neg h2]
      cases hf : rt.cr.FindStringSubmatch path with
      | nil => simp [Regexp.MatchString, hf] at h2
      | cons m0 subs =>
        simp only
        by_cases h3 : (m0.utf8ByteSize != path.utf8ByteSize) = true
        · rw [if_pos h3]
        · exfalso
          apply h
          refine ⟨?_, m0, subs, hf, by simpa using h3⟩
          unfold MethodOK
          by_cases e : ctx.Request.Method = rt.method
          · exact Or.inl e
          · right
            simpa [e] using h1

theorem loop_none (ctx : Context) (path : String) (rs : List route) (k : Nat)
    (h : ∀ rt ∈ rs, ¬ Accepts rt ctx.Request.Method path) :
    routeHandler.loop ctx path k rs = (ctx.Abort 404 "Page not found", Exit.returned) := by
  induction rs generalizing k with
  | nil => rfl
  | cons rt rest ih =>
    rw [loop_cons_skip ctx path k rt rest (h rt (List.mem_cons_self _ _))]
    exact ih (k + 1) (fun r hr => h r (List.mem_cons_of_mem _ hr))

theorem loop_first (ctx : Context) (path : String) (pre : List route) (rt : route)
    (post : List route) (k : Nat)
    (hpre : ∀ r ∈ pre, ¬ Accepts r ctx.Request.Method path)
    (hrt : Accepts rt ctx.Request.Method path) :
    routeHandler.loop ctx path k (pre ++ rt :: post) =
      routeHandler.serve ctx (k + pre.length) rt (rt.cr.FindStringSubmatch path) := by
  induction pre generalizing k with
  | nil => simpa using loop_cons_accept ctx path k rt post hrt
  | cons r pre ih =>
    rw [List.cons_append, loop_cons_skip ctx path k r _ (hpre r (List.mem_cons_self _ _))]
    rw [ih (k + 1) (fun x hx => hpre x (List.mem_cons_of_mem _ hx))]
    simp [Nat.add_assoc, Nat.add_comm 1]

/-- Splitting a list at an index. -/
theorem split_at_index {α : Type} (l : List α) (i : Nat) (hi : i < l.length) :
    l = l.take i ++ l[i] :: l.drop (i + 1) := by
  simp

theorem routeHandler_first (this : Router) (ctx : Context) (path : String) (i : Nat)
    (hi : i < this.routes.length)
    (hacc : Accepts this.routes[i] ctx.Request.Method path)
    (hmin : ∀ j (hj : j < this.routes.length), j < i →
      ¬ Accepts this.routes[j] ctx.Request.Method path) :
    this.routeHandler ctx path =
      routeHandler.serve ctx i this.routes[i] (this.routes[i].cr.FindStringSubmatch path) := by
  unfold Router.routeHandler
  have hs := split_at_index this.routes i hi
  have hpre : ∀ r ∈ this.routes.take i, ¬ Accepts r ctx.Request.Method path := by
    intro r hr
    obtain ⟨j, hj, rfl⟩ := List.getElem_of_mem hr
    have hj2 : j < i := by
      have := hj
      simp at this
      omega
    have hj3 : j < this.routes.length := by omega
    rw [List.getElem_take]
    exact hmin j hj3 hj2
  have := loop_first ctx path (this.routes.take i) this.routes[i] (this.routes.drop (i + 1)) 0
    hpre hacc
  rw [← hs] at this
  rw [this]
  simp [List.length_take, Nat.min_eq_left (Nat.le_of_lt hi)]

/-- The loop either finds no accepting route and answers 404, or serves the first accepting
route and nothing else. -/
theorem loop_cases (ctx : Context) (path : String) (rs : List route) (k : Nat) :
    ((∀ rt ∈ rs, ¬ Accepts rt ctx.Request.Method path) ∧
      routeHandler.loop ctx path k rs = (ctx.Abort 404 "Page not found", Exit.returned)) ∨
    (∃ pre rt post, rs = pre ++ rt :: post ∧
      (∀ r ∈ pre, ¬ Accepts r ctx.Request.Method path) ∧ Accepts rt ctx.Request.Method path ∧
      routeHandler.loop ctx path k rs =
        routeHandler.serve ctx (k + pre.length) rt (rt.cr.FindStringSubmatch path)) := by
  induction rs generalizing k with
  | nil => exact Or.inl ⟨by simp, rfl⟩
  | cons r rest ih =>
    by_cases hr : Accepts r ctx.Request.Method path
    · right
      exact ⟨[], r, rest, rfl, by simp, hr, by simpa using loop_cons_accept ctx path k r rest hr⟩
    · rcases ih (k + 1) with ⟨hnone, hl⟩ | ⟨pre, rt, post, hsplit, hpre, hrt, hl⟩
      · left
        refine ⟨?_, by rw [loop_cons_skip ctx path k r rest hr, hl]⟩
        intro x hx
        rcases List.mem_cons.1 hx with rfl | hx
        · exact hr
        · exact hnone x hx
      · right
        refine ⟨r :: pre, rt, post, by simp [hsplit], ?_, hrt, ?_⟩
        · intro x hx
          rcases List.mem_cons.1 hx with rfl | hx
          · exact hr
          · exact hpre x hx
        · rw [loop_cons_skip ctx path k r rest hr, hl]
          simp [Nat.add_assoc, Nat.add_comm 1]

/-- An invocation recorded by the loop started at index `k` has an index from `k` on. -/
theorem loop_calls_index (ctx : Context) (path : String) (rs : List route) (k j : Nat)
    (a : List Value)
    (h : (routeHandler.loop ctx path k rs).1.calls = ctx.calls ++ [(j, a)]) : k ≤ j := by
  rcases loop_cases ctx path rs k with ⟨_, hl⟩ | ⟨pre, rt, post, _, _, _, hl⟩
  · rw [hl] at h
    simp at h
  · rw [hl, serve_calls] at h
    simp at h
    omega

/-- The route whose invocation `routeHandler` records is the first accepting route. -/
theorem routeHandler_invoked (this : Router) (ctx : Context) (path : String) (i : Nat)
    (a : List Value) (h : (this.routeHandler ctx path).1.calls = ctx.calls ++ [(i, a)]) :
    ∃ hi : i < this.routes.length, Accepts this.routes[i] ctx.Request.Method path ∧
      ∀ j (hj : j < this.routes.length), j < i →
        ¬ Accepts this.routes[j] ctx.Request.Method path := by
  unfold Router.routeHandler at h
  rcases loop_cases ctx path this.routes 0 with ⟨_, hl⟩ | ⟨pre, rt, post, hsplit, hpre, hrt, hl⟩
  · rw [hl] at h
    simp at h
  · rw [hl, serve_calls] at h
    simp at h
    obtain ⟨hi, _⟩ := h
    subst hi
    have hlen : pre.length < this.routes.length := by simp [hsplit]
    refine ⟨hlen, ?_, ?_⟩
    · have : this.routes[pre.length]? = some rt := by
        rw [hsplit, List.getElem?_append_right (Nat.le_refl _)]
        simp
      rw [List.getElem?_eq_getElem hlen] at this
      rw [Option.some.inj this]
      exact hrt
    · intro j hj hji
      have : this.routes[j]? = some pre[j] := by
        rw [hsplit, List.getElem?_append_left hji, List.getElem?_eq_getElem hji]
      rw [List.getElem?_eq_getElem hj] at this
      rw [Option.some.inj this]
      exact hpre _ (List.getElem_mem _)

/-! ## First match wins, not found, method test, registration -/

/-- C1 (first match wins): when route `i` is the first route, in registration order, that
accepts the request method and whose pattern spans the whole path, `routeHandler` does exactly
what serving route `i` does, and the one handler invocation it records is that of route `i`
with the arguments bound from its match; no other route is invoked. -/
theorem C1_first_match_wins (this : Router) (ctx : Context) (path : String) (i : Nat)
    (hi : i < this.routes.length)
    (hacc : Accepts this.routes[i] ctx.Request.Method path)
    (hmin : ∀ j (hj : j < this.routes.length), j < i →
      ¬ Accepts this.routes[j] ctx.Request.Method path) :
    this.routeHandler ctx path =
        routeHandler.serve ctx i this.routes[i] (this.routes[i].cr.FindStringSubmatch path) ∧
      (this.routeHandler ctx path).1.calls =
        ctx.calls ++
          [(i, routeHandler.args this.routes[i] (this.routes[i].cr.FindStringSubmatch path))] := by
  have h := routeHandler_first this ctx path i hi hacc hmin
  exact ⟨h, by rw [h, serve_calls]⟩

/-- C9 (not found): `routeHandler` answers with `Abort(404, "Page not found")` and records no
handler invocation exactly when no route of the table accepts the request; the answer is the
status 404 followed by the non-empty fixed body, the header map being left alone. -/
theorem C9_not_found (this : Router) (ctx : Context) (path : String) :
    ((∀ rt ∈ this.routes, ¬ Accepts rt ctx.Request.Method path) ↔
        this.routeHandler ctx path = (ctx.Abort 404 "Page not found", Exit.returned)) ∧
      (ctx.Abort 404 "Page not found").calls = ctx.calls ∧
      (ctx.Abort 404 "Page not found").ResponseWriter.sent =
        ctx.ResponseWriter.sent ++ [Sent.status 404, Sent.body (bytesOf "Page not found")] ∧
      (ctx.Abort 404 "Page not found").ResponseWriter.header = ctx.ResponseWriter.header ∧
      bytesOf "Page not found" ≠ [] := by
  refine ⟨⟨fun h => loop_none ctx path this.routes 0 h, fun h => ?_⟩, rfl, ?_, rfl, by decide⟩
  · unfold Router.routeHandler at h
    rcases loop_cases ctx path this.routes 0 with ⟨hnone, _⟩ | ⟨pre, rt, post, _, _, _, hl⟩
    · exact hnone
    · have hc := congrArg (fun r => r.1.calls) h
      simp only [hl, serve_calls, Abort_calls] at hc
      simp at hc
  · simp [Context.Abort, ResponseWriter.Write, ResponseWriter.WriteHeader]

/-- C3 (HEAD as GET): a route whose pattern spans the whole path is invoked by the loop when it
reaches it exactly when the request method equals the method of the route or the request is a
HEAD and the route is registered for GET; a GET route is served for a HEAD request, and no
route registered for POST is ever invoked for a HEAD request. -/
theorem C3_head_as_get (ctx : Context) (path : String) (i : Nat) (rt : route)
    (rest : List route) (hspan : FullSpan rt.cr path) :
    ((routeHandler.loop ctx path i (rt :: rest)).1.calls =
          ctx.calls ++ [(i, routeHandler.args rt (rt.cr.FindStringSubmatch path))] ↔
        (ctx.Request.Method = rt.method ∨
          (ctx.Request.Method = "HEAD" ∧ rt.method = "GET"))) ∧
      (ctx.Request.Method = "HEAD" → rt.method = "GET" →
        routeHandler.loop ctx path i (rt :: rest) =
          routeHandler.serve ctx i rt (rt.cr.FindStringSubmatch path)) ∧
      (ctx.Request.Method = "HEAD" → rt.method = "POST" →
        routeHandler.loop ctx path i (rt :: rest) = routeHandler.loop ctx path (i + 1) rest) ∧
      (ctx.Request.Method = "HEAD" →
        ∀ (this : Router) (j : Nat) (hj : j < this.routes.length) (a : List Value),
          this.routes[j].method = "POST" →
          (this.routeHandler ctx path).1.calls ≠ ctx.calls ++ [(j, a)]) := by
  refine ⟨⟨fun h => ?_, fun h => ?_⟩, fun h1 h2 => ?_, fun h1 h2 => ?_, fun h1 this j hj a hp hc => ?_⟩
  · by_contra hno
    have hskip : ¬ Accepts rt ctx.Request.Method path := fun hacc => hno hacc.1
    rw [loop_cons_skip ctx path i rt rest hskip] at h
    have := loop_calls_index ctx path rest (i + 1) i _ h
    omega
  · rw [loop_cons_accept ctx path i rt rest ⟨h, hspan⟩, serve_calls]
  · exact loop_cons_accept ctx path i rt rest ⟨Or.inr ⟨h1, h2⟩, hspan⟩
  · apply loop_cons_skip
    rintro ⟨hm, _⟩
    rcases hm with hm | ⟨_, hm⟩
    · rw [h1, h2] at hm
      exact absurd hm (by decide)
    · rw [h2] at hm
      exact absurd hm (by decide)
  · obtain ⟨_, hacc, _⟩ := routeHandler_invoked this ctx path j a hc
    rcases hacc.1 with hm | ⟨_, hm⟩
    · rw [h1, hp] at hm
      exact absurd hm (by decide)
    · rw [hp] at hm
      exact absurd hm (by decide)

/-- C10 (registration): when the pattern fails to compile, `addRoute` returns the compile
error and the router is unchanged; otherwise it returns nil and the route list is the old list
followed by one route carrying the pattern, the expression compiled from it, the method and
the handler, so the list grows by one whatever it already holds and the old entries keep their
places; `Get`, `Post`, `Put`, `Delete` and `Match` are `addRoute` with their method. -/
theorem C10_registration (compile : String → Except String Regexp) (this : Router)
    (pattern method : String) (handler : HandlerArg) :
    (∀ err, compile pattern = Except.error err →
        this.addRoute compile pattern method handler = (this, some err)) ∧
      (∀ cr, compile pattern = Except.ok cr →
        this.addRoute compile pattern method handler =
            ({ routes := this.routes ++
                [{ pattern := pattern, cr := cr, method := method, handler := handler.fn }] },
              none) ∧
          (this.addRoute compile pattern method handler).1.routes.length =
            this.routes.length + 1 ∧
          ∀ k (hk : k < this.routes.length),
            (this.addRoute compile pattern method handler).1.routes[k]? =
              some this.routes[k]) ∧
      this.Get compile pattern handler = this.addRoute compile pattern "GET" handler ∧
      this.Post compile pattern handler = this.addRoute compile pattern "POST" handler ∧
      this.Put compile pattern handler = this.addRoute compile pattern "PUT" handler ∧
      this.Delete compile pattern handler = this.addRoute compile pattern "DELETE" handler ∧
      this.Match compile pattern method handler =
        this.addRoute compile pattern method handler := by
  refine ⟨fun err h => ?_, fun cr h => ?_, rfl, rfl, rfl, rfl, rfl⟩
  · simp [Router.addRoute, h]
  · have he : this.addRoute compile pattern method handler =
        ({ routes := this.routes ++
            [{ pattern := pattern, cr := cr, method := method, handler := handler.fn }] },
          none) := by
      cases handler <;> simp [Router.addRoute, h, HandlerArg.fn, reflectValueOf]
    refine ⟨he, by simp [he], fun k hk => ?_⟩
    simp [he, List.getElem?_append_left hk, List.getElem?_eq_getElem hk]

/-! ## Headers -/

theorem canonical_content_type : CanonicalMIMEHeaderKey "Content-Type" = "Content-Type" := by
  decide

theorem canonical_content_length :
    CanonicalMIMEHeaderKey "Content-Length" = "Content-Length" := by
  decide

theorem lookup_filter_ne (h : Header) (c k : String) (hne : k ≠ c) :
    (h.filter (fun e => e.1 != c)).lookup k = h.lookup k := by
  induction h with
  | nil => rfl
  | cons e rest ih =>
    obtain ⟨ek, ev⟩ := e
    by_cases hc : ek = c
    · subst hc
      have hk : (k == ek) = false := by simpa using hne
      simp [List.filter, List.lookup, hk, ih]
    · by_cases hk : k = ek
      · subst hk
        simp [List.filter_cons, hc, List.lookup]
      · have hk2 : (k == ek) = false := by simpa using hk
        simp [List.filter_cons, hc, List.lookup, hk2, ih]

theorem index_Set_self (h : Header) (k v : String) :
    (h.Set k v).index (CanonicalMIMEHeaderKey k) = some [v] := by
  simp [Header.Set, Header.index, List.lookup]

theorem index_Set_ne (h : Header) (k v k1 : String) (hne : k1 ≠ CanonicalMIMEHeaderKey k) :
    (h.Set k v).index k1 = h.index k1 := by
  have hk : (k1 == CanonicalMIMEHeaderKey k) = false := by simpa using hne
  simp only [Header.Set, Header.index, List.lookup, hk]
  exact lookup_filter_ne h _ k1 hne

/-- The UTF-8 encoding of a string has as many bytes as `len` counts. -/
theorem bytesOf_length (s : String) : (bytesOf s).length = s.utf8ByteSize := by
  have := String.size_toUTF8 s
  simpa [bytesOf, String.toUTF8, ByteArray.size, Array.size] using this

/-- What `respond` does with content. -/
theorem respond_resolved (ctx : Context) (sval : Value) (content : Bytes)
    (h : (∃ s, sval = Value.str s ∧ content = bytesOf s) ∨ sval = Value.bytes content) :
    Resolved ctx.ResponseWriter content (routeHandler.respond ctx sval) := by
  have hr : routeHandler.respond ctx sval =
      ({ (if (ctx.ResponseWriter.header.index "Content-Type").isSome then ctx
            else ctx.SetHeader "Content-Type" "text/html; charset=utf-8").SetHeader
              "Content-Length" (toString content.length) with
          ResponseWriter :=
            ((if (ctx.ResponseWriter.header.index "Content-Type").isSome then ctx
              else ctx.SetHeader "Content-Type" "text/html; charset=utf-8").SetHeader
                "Content-Length" (toString content.length)).ResponseWriter.Write content },
        Exit.returned) := by
    rcases h with ⟨s, rfl, rfl⟩ | rfl <;> rfl
  rw [hr]
  have hcl := canonical_content_length
  have hct := canonical_content_type
  have hne : ("Content-Type" : String) ≠ "Content-Length" := by decide
  refine ⟨rfl, ?_, ?_, ?_, ?_⟩
  · split <;> simp [Context.SetHeader, ResponseWriter.Write]
  · simp only [Context.SetHeader, ResponseWriter.Write]
    have := index_Set_self
      (if (ctx.ResponseWriter.header.index "Content-Type").isSome then ctx
        else ctx.SetHeader "Content-Type" "text/html; charset=utf-8").ResponseWriter.header
      "Content-Length" (toString content.length)
    rw [hcl] at this
    exact this
  · simp only [Context.SetHeader, ResponseWriter.Write]
    rw [index_Set_ne _ _ _ _ (by rw [hcl]; exact hne)]
    cases hidx : ctx.ResponseWriter.header.index "Content-Type" with
    | none =>
      simp only [Option.isSome_none, Bool.false_eq_true, if_false]
      have := index_Set_self ctx.ResponseWriter.header "Content-Type" "text/html; charset=utf-8"
      rw [hct] at this
      exact this
    | some vs => simp [hidx]
  · intro k hk1 hk2
    simp only [Context.SetHeader, ResponseWriter.Write]
    rw [index_Set_ne _ _ _ _ (by rw [hcl]; exact hk2)]
    split
    · rfl
    · exact index_Set_ne _ _ _ _ (by rw [hct]; exact hk1)

/-! ## Serving the accepted route -/

theorem serve_returned (ctx : Context) (i : Nat) (rt : route) (m : List String)
    (w : ResponseWriter) (ret : List Value)
    (h : rt.handler.Call (routeHandler.args rt m) ctx.ResponseWriter = Outcome.returned w ret) :
    routeHandler.serve ctx i rt m =
      routeHandler.finish
        { ResponseWriter := w, Request := ctx.Request,
          calls := ctx.calls ++ [(i, routeHandler.args rt m)] } ret none := by
  simp [routeHandler.serve, safelyCall, h]

theorem serve_panicked (ctx : Context) (i : Nat) (rt : route) (m : List String)
    (w : ResponseWriter) (v : String)
    (h : rt.handler.Call (routeHandler.args rt m) ctx.ResponseWriter =
      Outcome.panicked w (some v)) :
    routeHandler.serve ctx i rt m =
      ({ ResponseWriter := (w.WriteHeader 500).Write (bytesOf "Server Error"),
         Request := ctx.Request,
         calls := ctx.calls ++ [(i, routeHandler.args rt m)] }, Exit.returned) := by
  simp [routeHandler.serve, safelyCall, h, routeHandler.finish, Context.Abort]

theorem serve_panicked_nil (ctx : Context) (i : Nat) (rt : route) (m : List String)
    (w : ResponseWriter)
    (h : rt.handler.Call (routeHandler.args rt m) ctx.ResponseWriter =
      Outcome.panicked w none) :
    routeHandler.serve ctx i rt m =
      ({ ResponseWriter := w, Request := ctx.Request,
         calls := ctx.calls ++ [(i, routeHandler.args rt m)] }, Exit.returned) := by
  simp [routeHandler.serve, safelyCall, h, routeHandler.finish]

theorem requiresContext_iff (ts : List GoType) :
    requiresContext ts = true ↔ ∃ tl, ts = GoType.ptr GoType.contextStruct :: tl := by
  constructor
  · intro h
    cases ts with
    | nil => simp [requiresContext] at h
    | cons a0 tl =>
      cases a0 with
      | ptr elem =>
        simp only [requiresContext, contextType] at h
        by_cases he : elem = GoType.contextStruct
        · exact ⟨tl, by rw [he]⟩
        · simp [he] at h
      | _ => simp [requiresContext] at h
  · rintro ⟨tl, rfl⟩
    simp [requiresContext, contextType]

/-- C4 (context injection and binding): for the selected route, with captures `caps` (the
submatches `match[1:]` in group order), `safelyCall` is entered with the argument list
`ctx :: caps` when the first declared parameter of the handler is a pointer to `Context`, and
with `caps` alone otherwise (no parameter, or a first parameter of another type); the response
is what `routeHandler` makes of the outcome of that call. -/
theorem C4_context_injection (this : Router) (ctx : Context) (path : String) (i : Nat)
    (hi : i < this.routes.length)
    (hacc : Accepts this.routes[i] ctx.Request.Method path)
    (hmin : ∀ j (hj : j < this.routes.length), j < i →
      ¬ Accepts this.routes[j] ctx.Request.Method path)
    (m0 : String) (caps : List String)
    (hm : this.routes[i].cr.FindStringSubmatch path = m0 :: caps) (args : List Value)
    (hargs : ((∃ tl, this.routes[i].handler.In = GoType.ptr GoType.contextStruct :: tl) ∧
          args = Value.context :: caps.map Value.str) ∨
        ((¬ ∃ tl, this.routes[i].handler.In = GoType.ptr GoType.contextStruct :: tl) ∧
          args = caps.map Value.str)) :
    (this.routeHandler ctx path).1.calls = ctx.calls ++ [(i, args)] ∧
      this.routeHandler ctx path =
        routeHandler.finish
          (safelyCall { ctx with calls := ctx.calls ++ [(i, args)] }
            this.routes[i].handler args).1
          (safelyCall { ctx with calls := ctx.calls ++ [(i, args)] }
            this.routes[i].handler args).2.1
          (safelyCall { ctx with calls := ctx.calls ++ [(i, args)] }
            this.routes[i].handler args).2.2 := by
  have h := routeHandler_first this ctx path i hi hacc hmin
  have ha : routeHandler.args this.routes[i] (this.routes[i].cr.FindStringSubmatch path) =
      args := by
    rw [hm]
    rcases hargs with ⟨hc, rfl⟩ | ⟨hc, rfl⟩
    · simp [routeHandler.args, (requiresContext_iff _).2 hc]
    · have : requiresContext this.routes[i].handler.In = false := by
        cases hr : requiresContext this.routes[i].handler.In with
        | false => rfl
        | true => exact absurd ((requiresContext_iff _).1 hr) hc
      simp [routeHandler.args, this]
  refine ⟨by rw [h, serve_calls, ha], ?_⟩
  rw [h]
  simp only [routeHandler.serve, ha]

/-- A panic with a non-nil value in the selected handler (raised by its body, or by the
reflective call on an arity or type mismatch): `safelyCall` returns no results and the value
as error, and `routeHandler` returns after writing status 500 and the body "Server Error" onto
the sink as the handler left it; the header map is untouched, nothing else is written and no
other route is invoked. -/
theorem fault_answered_500 (this : Router) (ctx : Context) (path : String) (i : Nat)
    (hi : i < this.routes.length)
    (hacc : Accepts this.routes[i] ctx.Request.Method path)
    (hmin : ∀ j (hj : j < this.routes.length), j < i →
      ¬ Accepts this.routes[j] ctx.Request.Method path)
    (w : ResponseWriter) (v : String)
    (hpanic : this.routes[i].handler.Call
        (routeHandler.args this.routes[i] (this.routes[i].cr.FindStringSubmatch path))
        ctx.ResponseWriter = Outcome.panicked w (some v)) :
    (∀ c : Context, c.ResponseWriter = ctx.ResponseWriter →
        safelyCall c this.routes[i].handler
            (routeHandler.args this.routes[i] (this.routes[i].cr.FindStringSubmatch path)) =
          ({ c with ResponseWriter := w }, [], some v)) ∧
      this.routeHandler ctx path =
        ({ ResponseWriter := (w.WriteHeader 500).Write (bytesOf "Server Error"),
           Request := ctx.Request,
           calls := ctx.calls ++
            [(i, routeHandler.args this.routes[i]
                  (this.routes[i].cr.FindStringSubmatch path))] }, Exit.returned) ∧
      (this.routeHandler ctx path).1.ResponseWriter.header = w.header ∧
      (this.routeHandler ctx path).1.ResponseWriter.sent =
        w.sent ++ [Sent.status 500, Sent.body (bytesOf "Server Error")] := by
  have h := routeHandler_first this ctx path i hi hacc hmin
  rw [serve_panicked ctx i _ _ w v hpanic] at h
  refine ⟨fun c hc => ?_, h, by rw [h]; rfl, ?_⟩
  · simp [safelyCall, hc, hpanic]
  · rw [h]
    simp [ResponseWriter.Write, ResponseWriter.WriteHeader]

/-- A panic with the nil value in the selected handler: `safelyCall` returns no results and a
nil error, and `routeHandler` returns without writing anything: the response is the sink as
the handler left it, with no status 500. -/
theorem nil_fault_unanswered (this : Router) (ctx : Context) (path : String) (i : Nat)
    (hi : i < this.routes.length)
    (hacc : Accepts this.routes[i] ctx.Request.Method path)
    (hmin : ∀ j (hj : j < this.routes.length), j < i →
      ¬ Accepts this.routes[j] ctx.Request.Method path)
    (w : ResponseWriter)
    (hpanic : this.routes[i].handler.Call
        (routeHandler.args this.routes[i] (this.routes[i].cr.FindStringSubmatch path))
        ctx.ResponseWriter = Outcome.panicked w none) :
    (∀ c : Context, c.ResponseWriter = ctx.ResponseWriter →
        safelyCall c this.routes[i].handler
            (routeHandler.args this.routes[i] (this.routes[i].cr.FindStringSubmatch path)) =
          ({ c with ResponseWriter := w }, [], none)) ∧
      this.routeHandler ctx path =
        ({ ResponseWriter := w, Request := ctx.Request,
           calls := ctx.calls ++
            [(i, routeHandler.args this.routes[i]
                  (this.routes[i].cr.FindStringSubmatch path))] }, Exit.returned) := by
  have h := routeHandler_first this ctx path i hi hacc hmin
  rw [serve_panicked_nil ctx i _ _ w hpanic] at h
  exact ⟨fun c hc => by simp [safelyCall, hc, hpanic], h⟩

/-- C5 (fault isolation) fails on the code for a handler whose body is `panic(nil)`: the
recovered value is nil, so `safelyCall` returns no results and a nil error, and `routeHandler`
returns without writing the status 500 or the body "Server Error": the sink is left empty. -/
theorem C5_nil_panic_not_answered :
    nilPanic.Call [] emptyWriter = Outcome.panicked emptyWriter none ∧
      safelyCall (newContext "GET" "/") nilPanic [] = (newContext "GET" "/", [], none) ∧
      nilPanicRouter.routeHandler (newContext "GET" "/") "/" =
        ({ ResponseWriter := emptyWriter, Request := { Method := "GET", Path := "/" },
           calls := [(0, [])] }, Exit.returned) ∧
      (nilPanicRouter.routeHandler (newContext "GET" "/") "/").1.ResponseWriter.sent = [] ∧
      (nilPanicRouter.routeHandler (newContext "GET" "/") "/").1.ResponseWriter.sent ≠
        [Sent.status 500, Sent.body (bytesOf "Server Error")] := by
  decide

/-- Response resolution for the type `[]byte` and for strings: when the selected handler
returns normally and its first result is of kind string (content: the UTF-8 bytes of the
string) or a value of the type `[]byte` itself (content: those bytes),
`routeHandler` returns after appending exactly the content to what the handler wrote, with
Content-Length set to the decimal byte count of the content, Content-Type set to
"text/html; charset=utf-8" when the handler left no Content-Type and kept as it is otherwise,
and every other header left alone. -/
theorem resolution_string_or_bytes (this : Router) (ctx : Context) (path : String) (i : Nat)
    (hi : i < this.routes.length)
    (hacc : Accepts this.routes[i] ctx.Request.Method path)
    (hmin : ∀ j (hj : j < this.routes.length), j < i →
      ¬ Accepts this.routes[j] ctx.Request.Method path)
    (w : ResponseWriter) (sval : Value) (more : List Value) (content : Bytes)
    (hret : this.routes[i].handler.Call
        (routeHandler.args this.routes[i] (this.routes[i].cr.FindStringSubmatch path))
        ctx.ResponseWriter = Outcome.returned w (sval :: more))
    (hval : (∃ s, sval = Value.str s ∧ content = bytesOf s) ∨ sval = Value.bytes content) :
    Resolved w content (this.routeHandler ctx path) ∧
      (∀ s, sval = Value.str s → content.length = s.utf8ByteSize) := by
  have h := routeHandler_first this ctx path i hi hacc hmin
  rw [serve_returned ctx i _ _ w _ hret] at h
  constructor
  · rw [h]
    simp only [routeHandler.finish, Option.isSome_none, Bool.false_eq_true, if_false]
    exact respond_resolved _ sval content hval
  · intro s hs
    rcases hval with ⟨s1, h1, h2⟩ | h1
    · rw [hs] at h1
      cases h1
      rw [h2, bytesOf_length]
    · rw [hs] at h1
      cases h1

/-- C8 (response resolution) fails on the code for a byte slice of a defined type: the handler
`rawMessage` returns a `json.RawMessage`; the kind test of line 105 takes it for byte content,
the type assertion `.([]byte)` of line 106 panics, outside `safelyCall`, and `routeHandler`
is left by that panic with nothing written: no body, no Content-Length, no Content-Type. -/
theorem C8_defined_byte_slice_panics :
    rawMessage.Call [] emptyWriter =
        Outcome.returned emptyWriter [Value.namedBytes "json.RawMessage" (bytesOf "ok")] ∧
      rawMessageRouter.routeHandler (newContext "GET" "/msg") "/msg" =
        ({ ResponseWriter := emptyWriter, Request := { Method := "GET", Path := "/msg" },
           calls := [(0, [])] },
          Exit.panicked "interface conversion: interface is not []uint8") ∧
      (rawMessageRouter.routeHandler (newContext "GET" "/msg") "/msg").1.ResponseWriter.body =
        [] ∧
      (rawMessageRouter.routeHandler (newContext "GET" "/msg") "/msg"
        ).1.ResponseWriter.header.index "Content-Length" = none := by
  decide

/-- C6 (the return value after Abort): the handler `denyThenReturn` calls
`ctx.Abort(403, "denied")` and returns "x"; `routeHandler` still writes the returned "x", so
the response body is "deniedx" and not the body given to `Abort`. -/
theorem C6_return_value_written_after_abort :
    (denyRouter.routeHandler (newContext "GET" "/") "/").1.ResponseWriter.sent =
        [Sent.status 403, Sent.body (bytesOf "denied"), Sent.body (bytesOf "x")] ∧
      (denyRouter.routeHandler (newContext "GET" "/") "/").1.ResponseWriter.body =
        bytesOf "deniedx" ∧
      (denyRouter.routeHandler (newContext "GET" "/") "/").1.ResponseWriter.body ≠
        bytesOf "denied" := by
  decide

theorem ServeHTTP_eq (srv : Server) (DefaultRouter : Router) (webTime : Nat → String)
    (tm : Nat) (w0 : ResponseWriter) (r : Request) :
    srv.ServeHTTP DefaultRouter webTime tm w0 r =
      (srv.Router.getD DefaultRouter).routeHandler
        { ResponseWriter :=
            { w0 with header := (w0.header.Set "Server" "coral").Set "Date" (webTime tm) },
          Request := r, calls := [] } r.Path := by
  unfold Server.ServeHTTP
  cases srv.Router <;> rfl

/-- C7 as stated fails: the handler `silent` sets no header and writes nothing, yet after
`ServeHTTP` the response carries the headers Server and Date, which the framework set. -/
theorem C7_default_headers_counterexample :
    silent.Call [] emptyWriter = Outcome.returned emptyWriter [] ∧
      ((Server.mk (some silentRouter)).ServeHTTP NewRouter fixedDate 0 emptyWriter
          { Method := "GET", Path := "/" }).1.calls = [(0, [])] ∧
      ((Server.mk (some silentRouter)).ServeHTTP NewRouter fixedDate 0 emptyWriter
          { Method := "GET", Path := "/" }).1.ResponseWriter.header =
        [("Date", ["Thu, 01 Jan 1970 00:00:00 GMT"]), ("Server", ["coral"])] ∧
      ((Server.mk (some silentRouter)).ServeHTTP NewRouter fixedDate 0 emptyWriter
          { Method := "GET", Path := "/" }).1.ResponseWriter ≠ emptyWriter := by
  decide

/-- C7 (no-value return, amended): `ServeHTTP` sets the default headers Server and Date on the
sink before dispatch; when the selected handler, run on that sink, returns no value without
faulting, nothing is added after it: no body write, no further header, no 404, and the
response is exactly the sink as the handler left it. -/
theorem C7_no_value_return (srv : Server) (DefaultRouter : Router) (webTime : Nat → String)
    (tm : Nat) (w0 : ResponseWriter) (r : Request) (i : Nat)
    (hi : i < (srv.Router.getD DefaultRouter).routes.length)
    (hacc : Accepts (srv.Router.getD DefaultRouter).routes[i] r.Method r.Path)
    (hmin : ∀ j (hj : j < (srv.Router.getD DefaultRouter).routes.length), j < i →
      ¬ Accepts (srv.Router.getD DefaultRouter).routes[j] r.Method r.Path)
    (w : ResponseWriter)
    (hret : (srv.Router.getD DefaultRouter).routes[i].handler.Call
        (routeHandler.args (srv.Router.getD DefaultRouter).routes[i]
          ((srv.Router.getD DefaultRouter).routes[i].cr.FindStringSubmatch r.Path))
        { w0 with header := (w0.header.Set "Server" "coral").Set "Date" (webTime tm) } =
      Outcome.returned w []) :
    srv.ServeHTTP DefaultRouter webTime tm w0 r =
      ({ ResponseWriter := w, Request := r,
         calls := [(i, routeHandler.args (srv.Router.getD DefaultRouter).routes[i]
          ((srv.Router.getD DefaultRouter).routes[i].cr.FindStringSubmatch r.Path))] },
        Exit.returned) := by
  rw [ServeHTTP_eq]
  have h := routeHandler_first (srv.Router.getD DefaultRouter)
    { ResponseWriter :=
        { w0 with header := (w0.header.Set "Server" "coral").Set "Date" (webTime tm) },
      Request := r, calls := [] } r.Path i hi hacc hmin
  rw [h, serve_returned _ i _ _ w [] hret]
  simp [routeHandler.finish]

theorem utf8ByteSize_append (a b : String) :
    (a ++ b).utf8ByteSize = a.utf8ByteSize + b.utf8ByteSize := by
  obtain ⟨a⟩ := a
  obtain ⟨b⟩ := b
  show (String.mk (a ++ b)).utf8ByteSize = _
  simp [String.utf8Len_append]

theorem eq_empty_of_utf8ByteSize (a : String) (h : a.utf8ByteSize = 0) : a = "" := by
  obtain ⟨a⟩ := a
  simp at h
  rw [h]

theorem span_eq_of_contiguous (path m0 pre post : String) (h : path = pre ++ m0 ++ post)
    (hl : m0.utf8ByteSize = path.utf8ByteSize) : m0 = path := by
  have hs := congrArg String.utf8ByteSize h
  rw [utf8ByteSize_append, utf8ByteSize_append] at hs
  have h1 : pre = "" := eq_empty_of_utf8ByteSize pre (by omega)
  have h2 : post = "" := eq_empty_of_utf8ByteSize post (by omega)
  rw [h, h1, h2]
  simp

theorem parse_slash_foo :
    parsePattern "/foo" =
      some (Re.cat (Re.lit '/') (Re.cat (Re.lit 'f') (Re.cat (Re.lit 'o') (Re.lit 'o')))) := by
  decide

theorem parse_catch_all :
    parsePattern "/(.*)" = some (Re.cat (Re.lit '/') (Re.group 1 (Re.star Re.any))) := by
  decide

theorem iter_any_head (s : List Char) (hs : ∀ x ∈ s, x ≠ Char.ofNat 10) (fuel : Nat)
    (hf : s.length ≤ fuel) (c : Caps) :
    ∃ rest, Re.iter Re.any.run fuel s c = ([], c) :: rest := by
  induction s generalizing fuel with
  | nil =>
    cases fuel with
    | zero => exact ⟨[], rfl⟩
    | succ f => exact ⟨[], by simp [Re.iter, Re.run]⟩
  | cons x xs ih =>
    cases fuel with
    | zero => simp at hf
    | succ f =>
      have hx : x ≠ Char.ofNat 10 := hs x (List.mem_cons_self _ _)
      obtain ⟨rest, hr⟩ := ih (fun y hy => hs y (List.mem_cons_of_mem _ hy)) f
        (by simpa using hf)
      refine ⟨rest ++ [(x :: xs, c)], ?_⟩
      have hrun : Re.any.run (x :: xs) c = [(xs, c)] := by simp [Re.run, hx]
      simp [Re.iter, hrun, hr]

theorem run_catch_all (td : List Char) (h : ∀ x ∈ td, x ≠ Char.ofNat 10) :
    ∃ rest, (Re.cat (Re.lit '/') (Re.group 1 (Re.star Re.any))).run ('/' :: td) [] =
      ([], [(1, td)]) :: rest := by
  obtain ⟨rest, hr⟩ := iter_any_head td h td.length (Nat.le_refl _) []
  have e : (Re.cat (Re.lit '/') (Re.group 1 (Re.star Re.any))).run ('/' :: td) [] =
      (Re.iter Re.any.run td.length td []).map
        (fun t => (t.1, (1, td.take (td.length - t.1.length)) :: t.2)) ++ [] := rfl
  rw [e, hr]
  exact ⟨rest.map (fun t => (t.1, (1, td.take (td.length - t.1.length)) :: t.2)), by simp⟩

theorem catch_all_find (tail : String) (h : ∀ x ∈ tail.data, x ≠ Char.ofNat 10) :
    (Regexp.ofRe (Re.cat (Re.lit '/') (Re.group 1 (Re.star Re.any)))).FindStringSubmatch
      ("/" ++ tail) = ["/" ++ tail, tail] := by
  obtain ⟨rest, hr⟩ := run_catch_all tail.data h
  have hd : ("/" ++ tail).data = '/' :: tail.data := by simp
  have hs : (Re.cat (Re.lit '/') (Re.group 1 (Re.star Re.any))).search ('/' :: tail.data) =
      some ('/' :: tail.data, [(1, tail.data)]) := by
    rw [Re.search, hr]
    simp
  simp only [Regexp.ofRe, hd, hs]
  have hn : (Re.cat (Re.lit '/') (Re.group 1 (Re.star Re.any))).numSubexp = 1 := rfl
  rw [hn]
  simp [List.range, List.range.loop, List.lookup]
  apply String.ext
  rw [hd]

theorem search_contiguous (re : Re) (s m0 : List Char) (caps : Caps)
    (h : re.search s = some (m0, caps)) : ∃ pre post, s = pre ++ m0 ++ post := by
  induction s with
  | nil =>
    simp only [Re.search] at h
    cases hh : (re.run [] []).head? with
    | none => simp [hh] at h
    | some t =>
      simp [hh] at h
      exact ⟨[], [], by simp [← h.1]⟩
  | cons x xs ih =>
    simp only [Re.search] at h
    cases hh : (re.run (x :: xs) []).head? with
    | none =>
      simp only [hh] at h
      obtain ⟨pre, post, hp⟩ := ih h
      exact ⟨x :: pre, post, by simp [hp]⟩
    | some t =>
      simp only [hh, Option.some.injEq, Prod.mk.injEq] at h
      refine ⟨[], (x :: xs).drop ((x :: xs).length - t.1.length), ?_⟩
      rw [← h.1]
      simp

theorem ofRe_contiguous (re : Re) : (Regexp.ofRe re).Contiguous := by
  intro s m0 subs h
  simp only [Regexp.ofRe] at h
  cases hs : re.search s.data with
  | none => simp [hs] at h
  | some r =>
    obtain ⟨m, caps⟩ := r
    simp only [hs, List.cons.injEq] at h
    obtain ⟨pre, post, hp⟩ := search_contiguous re s.data m caps hs
    refine ⟨String.mk pre, String.mk post, ?_⟩
    rw [← h.1]
    apply String.ext
    simp [hp]

theorem compileModel_ok (pattern : String) (re : Re) (cr : Regexp)
    (hp : parsePattern pattern = some re) (h : compileModel pattern = Except.ok cr) :
    cr = Regexp.ofRe re := by
  simp only [compileModel, hp] at h
  cases h
  rfl

theorem slash_foo_find :
    (Regexp.ofRe (Re.cat (Re.lit '/') (Re.cat (Re.lit 'f') (Re.cat (Re.lit 'o') (Re.lit 'o'))))
      ).FindStringSubmatch "/foobar" = ["/foo"] := by
  decide

/-! ## Full-span anchoring -/

/-- C2 as stated fails on its last part: the path "/a\nb" begins with "/", yet the expression
of "/(.*)" matches only "/a" in it (the dot does not match a line feed), so the catch-all
route is not selected and the request is answered 404. -/
theorem C2_dot_excludes_line_feed :
    catchAllRouter.routes.map (fun rt => (rt.pattern, rt.cr.FindStringSubmatch "/a\nb")) =
        [("/(.*)", ["/a", "a"])] ∧
      catchAllRouter.routeHandler (newContext "GET" "/a\nb") "/a\nb" =
        ((newContext "GET" "/a\nb").Abort 404 "Page not found", Exit.returned) := by
  decide

/-- C2 (full-span anchoring, amended): a route is invoked only if the span `match[0]` found in
the path is the entire path, for every expression whose `match[0]` is a contiguous part of the
input; a route compiled from "/foo" is never invoked for the path "/foobar"; and a route
compiled from "/(.*)" passes the test for every path that begins with "/" and holds no line
feed after it, its capture being the rest of the path, so it is served when the loop reaches it
with an accepted method. -/
theorem C2_full_span_anchoring :
    (∀ (ctx : Context) (path : String) (i : Nat) (rt : route) (rest : List route)
        (a : List Value), rt.cr.Contiguous →
        (routeHandler.loop ctx path i (rt :: rest)).1.calls = ctx.calls ++ [(i, a)] →
        ∃ subs, rt.cr.FindStringSubmatch path = path :: subs) ∧
      (∀ (this : Router) (ctx : Context) (j : Nat) (hj : j < this.routes.length)
        (a : List Value), compileModel "/foo" = Except.ok this.routes[j].cr →
        (this.routeHandler ctx "/foobar").1.calls ≠ ctx.calls ++ [(j, a)]) ∧
      (∀ (rt : route) (tail : String), compileModel "/(.*)" = Except.ok rt.cr →
        (∀ x ∈ tail.data, x ≠ Char.ofNat 10) →
        rt.cr.FindStringSubmatch ("/" ++ tail) = ["/" ++ tail, tail] ∧
          FullSpan rt.cr ("/" ++ tail) ∧
          ∀ (ctx : Context) (i : Nat) (rest : List route),
            MethodOK ctx.Request.Method rt.method →
            routeHandler.loop ctx ("/" ++ tail) i (rt :: rest) =
              routeHandler.serve ctx i rt ["/" ++ tail, tail]) := by
  refine ⟨fun ctx path i rt rest a hcont hcalls => ?_, fun this ctx j hj a hc hcalls => ?_,
    fun rt tail hc hnl => ?_⟩
  · have hacc : Accepts rt ctx.Request.Method path := by
      by_contra hno
      rw [loop_cons_skip ctx path i rt rest hno] at hcalls
      have := loop_calls_index ctx path rest (i + 1) i a hcalls
      omega
    obtain ⟨_, m0, subs, hf, hl⟩ := hacc
    obtain ⟨pre, post, hp⟩ := hcont path m0 subs hf
    exact ⟨subs, by rw [hf, span_eq_of_contiguous path m0 pre post hp hl]⟩
  · obtain ⟨_, hacc, _⟩ := routeHandler_invoked this ctx "/foobar" j a hcalls
    obtain ⟨_, m0, subs, hf, hl⟩ := hacc
    rw [compileModel_ok "/foo" _ _ parse_slash_foo hc, slash_foo_find] at hf
    cases hf
    exact absurd hl (by decide)
  · have hfind : rt.cr.FindStringSubmatch ("/" ++ tail) = ["/" ++ tail, tail] := by
      rw [compileModel_ok "/(.*)" _ _ parse_catch_all hc]
      exact catch_all_find tail hnl
    have hspan : FullSpan rt.cr ("/" ++ tail) := ⟨"/" ++ tail, [tail], hfind, rfl⟩
    refine ⟨hfind, hspan, fun ctx i rest hm => ?_⟩
    rw [loop_cons_accept ctx ("/" ++ tail) i rt rest ⟨hm, hspan⟩, hfind]

/-! ## Instances -/

/-- C1 at the table of examples/hello.go followed by the more specific route `/a`: both routes accept `GET /a`, and the first one is the one invoked. -/
theorem C1_first_match_wins_witness :
    Accepts helloRouter.routes[0] "GET" "/a" ∧ Accepts helloRouter.routes[1] "GET" "/a" ∧
      (helloRouter.routeHandler (newContext "GET" "/a") "/a").1.calls =
        [(0, [Value.str "a"])] ∧
      (helloRouter.routeHandler (newContext "GET" "/a") "/a").1.ResponseWriter.body =
        bytesOf "hello a" :=
  have h0 : Accepts helloRouter.routes[0] "GET" "/a" :=
    And.intro (Or.inl (by decide)) (Exists.intro "/a" (Exists.intro ["a"] (by decide)))
  have h1 : Accepts helloRouter.routes[1] "GET" "/a" :=
    And.intro (Or.inl (by decide)) (Exists.intro "/a" (Exists.intro [] (by decide)))
  have h := C1_first_match_wins helloRouter (newContext "GET" "/a") "/a" 0 (by decide) h0
    (fun j _ hj => absurd hj (Nat.not_lt_zero j))
  ⟨h0, h1, h.2, by rw [h.1]; decide⟩

/-- C2 at concrete routes: the catch-all route invoked for `/a` matched all of `/a`, the route `/foo` is not invoked for `/foobar`, and `/(.*)` captures `anything/here`. -/
theorem C2_full_span_anchoring_witness :
    (∃ subs, helloRouter.routes[0].cr.FindStringSubmatch "/a" = "/a" :: subs) ∧
      (fooRouter.routeHandler (newContext "GET" "/foobar") "/foobar").1.calls ≠
        [(0, [])] ∧
      catchAllRouter.routes[0].cr.FindStringSubmatch ("/" ++ "anything/here") =
        ["/" ++ "anything/here", "anything/here"] :=
  ⟨C2_full_span_anchoring.1 (newContext "GET" "/a") "/a" 0 helloRouter.routes[0]
      [helloRouter.routes[1]] [Value.str "a"]
      (ofRe_contiguous (Re.cat (Re.lit '/') (Re.group 1 (Re.star Re.any)))) (by decide),
    C2_full_span_anchoring.2.1 fooRouter (newContext "GET" "/foobar") 0 (by decide) [] rfl,
    (C2_full_span_anchoring.2.2 catchAllRouter.routes[0] "anything/here" rfl
      (by decide)).1⟩

/-- C3 at a HEAD request: the GET route is invoked, the POST route is not. -/
theorem C3_head_as_get_witness :
    FullSpan catchAllRouter.routes[0].cr "/x" ∧
      (routeHandler.loop (newContext "HEAD" "/x") "/x" 0 [catchAllRouter.routes[0]]).1.calls =
        [(0, [Value.str "x"])] ∧
      (postRouter.routeHandler (newContext "HEAD" "/x") "/x").1.calls ≠
        [(0, [Value.str "x"])] :=
  have hs : FullSpan catchAllRouter.routes[0].cr "/x" :=
    Exists.intro "/x" (Exists.intro ["x"] (by decide))
  ⟨hs,
    (C3_head_as_get (newContext "HEAD" "/x") "/x" 0 catchAllRouter.routes[0] [] hs).1.2
      (Or.inr ⟨rfl, rfl⟩),
    (C3_head_as_get (newContext "HEAD" "/x") "/x" 0 catchAllRouter.routes[0] [] hs).2.2.2
      rfl postRouter 0 (by decide) [Value.str "x"] (by decide)⟩

/-- C4 at `/user/([^/]+)` with `/user/42`: the handler `func(*Context, string)` gets the context and the text 42; the handler `hello` gets the capture alone. -/
theorem C4_context_injection_witness :
    (userRouter.routeHandler (newContext "GET" "/user/42") "/user/42").1.calls =
        [(0, [Value.context, Value.str "42"])] ∧
      (userRouter.routeHandler (newContext "GET" "/user/42") "/user/42").1.ResponseWriter.body =
        bytesOf "42" ∧
      (catchAllRouter.routeHandler (newContext "GET" "/you") "/you").1.calls =
        [(0, [Value.str "you"])] :=
  have h := C4_context_injection userRouter (newContext "GET" "/user/42") "/user/42" 0
    (by decide)
    (And.intro (Or.inl (by decide)) (Exists.intro "/user/42" (Exists.intro ["42"] (by decide))))
    (fun j _ hj => absurd hj (Nat.not_lt_zero j)) "/user/42" ["42"] (by decide)
    [Value.context, Value.str "42"]
    (Or.inl ⟨Exists.intro [GoType.string] (by decide), by decide⟩)
  have g := C4_context_injection catchAllRouter (newContext "GET" "/you") "/you" 0
    (by decide)
    (And.intro (Or.inl (by decide)) (Exists.intro "/you" (Exists.intro ["you"] (by decide))))
    (fun j _ hj => absurd hj (Nat.not_lt_zero j)) "/you" ["you"] (by decide)
    [Value.str "you"]
    (Or.inr (And.intro
      (by
        rintro ⟨tl, htl⟩
        have hIn : catchAllRouter.routes[0].handler.In = [GoType.string] := by decide
        rw [hIn] at htl
        cases htl)
      (by decide)))
  ⟨h.1, by rw [h.2]; decide, g.1⟩

/-- Faults with a non-nil value, at a handler whose body panics and at a handler called with
too few arguments: both requests are answered 500; a request for another path of the same
table is served. -/
theorem fault_answered_500_instance :
    crashing.Call [] emptyWriter = Outcome.panicked emptyWriter (some "boom") ∧
      (crashRouter.routeHandler (newContext "GET" "/crash") "/crash").1.ResponseWriter.sent =
        [Sent.status 500, Sent.body (bytesOf "Server Error")] ∧
      (crashRouter.routeHandler (newContext "GET" "/crash") "/crash").1.ResponseWriter.header =
        [] ∧
      (crashRouter.routeHandler (newContext "GET" "/ok") "/ok").1.ResponseWriter.body =
        bytesOf "hello ok" ∧
      hello.Call [] emptyWriter =
        Outcome.panicked emptyWriter (some "reflect: Call with too few input arguments") ∧
      (arityRouter.routeHandler (newContext "GET" "/plain") "/plain").1.ResponseWriter.sent =
        [Sent.status 500, Sent.body (bytesOf "Server Error")] :=
  have h := fault_answered_500 crashRouter (newContext "GET" "/crash") "/crash" 0 (by decide)
    (And.intro (Or.inl (by decide)) (Exists.intro "/crash" (Exists.intro [] (by decide))))
    (fun j _ hj => absurd hj (Nat.not_lt_zero j)) emptyWriter "boom" (by decide)
  have g := fault_answered_500 arityRouter (newContext "GET" "/plain") "/plain" 0 (by decide)
    (And.intro (Or.inl (by decide)) (Exists.intro "/plain" (Exists.intro [] (by decide))))
    (fun j _ hj => absurd hj (Nat.not_lt_zero j)) emptyWriter
    "reflect: Call with too few input arguments" (by decide)
  ⟨by decide, h.2.2.2, h.2.2.1, by decide, by decide, g.2.2.2⟩

/-- The nil fault at the handler `nilPanic`: the sink is left as it was. -/
theorem nil_fault_unanswered_instance :
    nilPanicRouter.routeHandler (newContext "GET" "/") "/" =
      ({ ResponseWriter := emptyWriter, Request := { Method := "GET", Path := "/" },
         calls := [(0, [])] }, Exit.returned) :=
  (nil_fault_unanswered nilPanicRouter (newContext "GET" "/") "/" 0 (by decide)
    (And.intro (Or.inl (by decide)) (Exists.intro "/" (Exists.intro [] (by decide))))
    (fun j _ hj => absurd hj (Nat.not_lt_zero j)) emptyWriter (by decide)).2

/-- C7 at the handler `silent`: the response holds the two default headers and nothing else. -/
theorem C7_no_value_return_witness :
    (Server.mk (some silentRouter)).ServeHTTP NewRouter fixedDate 0 emptyWriter
        { Method := "GET", Path := "/" } =
      ({ ResponseWriter :=
          { header := [("Date", ["Thu, 01 Jan 1970 00:00:00 GMT"]), ("Server", ["coral"])],
            sent := [] },
         Request := { Method := "GET", Path := "/" }, calls := [(0, [])] }, Exit.returned) :=
  C7_no_value_return (Server.mk (some silentRouter)) NewRouter fixedDate 0 emptyWriter
    { Method := "GET", Path := "/" } 0 (by decide)
    (And.intro (Or.inl (by decide)) (Exists.intro "/" (Exists.intro [] (by decide))))
    (fun j _ hj => absurd hj (Nat.not_lt_zero j))
    { header := [("Date", ["Thu, 01 Jan 1970 00:00:00 GMT"]), ("Server", ["coral"])],
      sent := [] }
    (by decide)

/-- Response resolution at a handler returning a string and at a handler returning `[]byte`
after setting its own Content-Type. -/
theorem resolution_string_or_bytes_instance :
    Resolved emptyWriter (bytesOf "hello world")
        (catchAllRouter.routeHandler (newContext "GET" "/world") "/world") ∧
      Resolved { header := [("Content-Type", ["application/octet-stream"])], sent := [] }
        [1, 2, 3] (rawRouter.routeHandler (newContext "GET" "/raw") "/raw") ∧
      (catchAllRouter.routeHandler (newContext "GET" "/world") "/world"
        ).1.ResponseWriter.header =
        [("Content-Length", ["11"]), ("Content-Type", ["text/html; charset=utf-8"])] ∧
      (rawRouter.routeHandler (newContext "GET" "/raw") "/raw").1.ResponseWriter.header =
        [("Content-Length", ["3"]), ("Content-Type", ["application/octet-stream"])] :=
  ⟨(resolution_string_or_bytes catchAllRouter (newContext "GET" "/world") "/world" 0 (by decide)
      (And.intro (Or.inl (by decide))
        (Exists.intro "/world" (Exists.intro ["world"] (by decide))))
      (fun j _ hj => absurd hj (Nat.not_lt_zero j)) emptyWriter (Value.str "hello world") []
      (bytesOf "hello world") (by decide) (Or.inl ⟨"hello world", rfl, rfl⟩)).1,
    (resolution_string_or_bytes rawRouter (newContext "GET" "/raw") "/raw" 0 (by decide)
      (And.intro (Or.inl (by decide)) (Exists.intro "/raw" (Exists.intro [] (by decide))))
      (fun j _ hj => absurd hj (Nat.not_lt_zero j))
      { header := [("Content-Type", ["application/octet-stream"])], sent := [] }
      (Value.bytes [1, 2, 3]) [] [1, 2, 3] (by decide) (Or.inr rfl)).1,
    by decide, by decide⟩

/-- C9 at the empty table, and at a table with an accepting route, where the answer is not the 404. -/
theorem C9_not_found_witness :
    NewRouter.routeHandler (newContext "GET" "/unknown") "/unknown" =
        ((newContext "GET" "/unknown").Abort 404 "Page not found", Exit.returned) ∧
      (NewRouter.routeHandler (newContext "GET" "/unknown") "/unknown").1.ResponseWriter.sent =
        [Sent.status 404, Sent.body (bytesOf "Page not found")] ∧
      ¬ ∀ rt ∈ catchAllRouter.routes, ¬ Accepts rt "GET" "/unknown" :=
  have h := (C9_not_found NewRouter (newContext "GET" "/unknown") "/unknown").1.1
    (fun rt hrt => absurd hrt (List.not_mem_nil rt))
  ⟨h, by rw [h]; decide,
    fun hall => (show (catchAllRouter.routeHandler (newContext "GET" "/unknown") "/unknown" ≠
        ((newContext "GET" "/unknown").Abort 404 "Page not found", Exit.returned)) by decide)
      ((C9_not_found catchAllRouter (newContext "GET" "/unknown") "/unknown").1.1 hall)⟩

/-- C10 at a pattern that fails to compile and at the registration of a pattern that is already in the table. -/
theorem C10_registration_witness :
    helloRouter.addRoute compileModel "(" "GET" (HandlerArg.plain hello) =
        (helloRouter, some "error parsing regexp: (") ∧
      (helloRouter.addRoute compileModel "/a" "GET" (HandlerArg.plain hello)).1.routes.length =
        helloRouter.routes.length + 1 ∧
      (helloRouter.addRoute compileModel "/a" "GET" (HandlerArg.plain hello)).1.routes.map
          (fun rt => (rt.pattern, rt.method)) =
        [("/(.*)", "GET"), ("/a", "GET"), ("/a", "GET")] :=
  ⟨(C10_registration compileModel helloRouter "(" "GET" (HandlerArg.plain hello)).1
      "error parsing regexp: (" rfl,
    ((C10_registration compileModel helloRouter "/a" "GET" (HandlerArg.plain hello)).2.1
      (Regexp.ofRe (Re.cat (Re.lit '/') (Re.lit 'a'))) rfl).2.1,
    by rw [((C10_registration compileModel helloRouter "/a" "GET"
      (HandlerArg.plain hello)).2.1 (Regexp.ofRe (Re.cat (Re.lit '/') (Re.lit 'a'))) rfl).1]
       decide⟩

end Coral
